import Mathlib

/-!
Verification of the coldbrewer control core (backend/src/brewserver).

The Python source is shallowly embedded over ℚ: every float of the source
becomes an exact rational, `None`-able values become `Option ℚ`, and mutation
of `self` becomes explicit state passing (a method that mutates returns the
updated structure).  Calls to `math.exp` are represented by an explicit
function argument `rexp : ℚ → ℚ` supplied by the caller, since `exp` is
transcendental; every theorem below quantifies over `rexp`, so nothing
depends on its value.  `time.time()` becomes an explicit `now : ℚ` argument.
-/

/-- `ValveCommand` enum from model.py. -/
inductive ValveCommand
  | NOOP
  | FORWARD
  | BACKWARD
  | STOP
  deriving DecidableEq, Repr

/-- `BrewState` enum from model.py. -/
inductive BrewState
  | IDLE
  | BREWING
  | PAUSED
  | COMPLETED
  | ERROR
  deriving DecidableEq, Repr

/-- The 1D Kalman filter of brew_strategy.py (class `KalmanFilter`).
`is_init` embeds the source field `is_initialized`. -/
structure KalmanFilter where
  q : ℚ
  r : ℚ
  x : ℚ
  p : ℚ
  is_init : Bool
  deriving DecidableEq, Repr

/-- `KalmanFilter.__init__(q, r, initial_estimate, initial_error)`:
the source sets `is_initialized = initial_error < 1e9`. -/
def KalmanFilter.init (q r initial_estimate initial_error : ℚ) : KalmanFilter :=
  { q := q, r := r, x := initial_estimate, p := initial_error,
    is_init := decide (initial_error < 1000000000) }

/-- `KalmanFilter.update(measurement)`: returns the filtered estimate and the
updated filter state.  `measurement is None` returns the current estimate with
no state change; an uninitialized filter snaps to the measurement with `p = r`;
otherwise the random-walk predict/update cycle runs. -/
def KalmanFilter.update (f : KalmanFilter) (measurement : Option ℚ) : ℚ × KalmanFilter :=
  match measurement with
  | none => (f.x, f)
  | some m =>
    if f.is_init = false then
      (m, { f with x := m, p := f.r, is_init := true })
    else
      let x_pred := f.x
      let p_pred := f.p + f.q
      let k := p_pred / (p_pred + f.r)
      let x := x_pred + k * (m - x_pred)
      let p := (1 - k) * p_pred
      (x, { f with x := x, p := p })

/-- `KalmanFilter.reset()`. -/
def KalmanFilter.reset (f : KalmanFilter) : KalmanFilter :=
  { f with x := 0, p := 1, is_init := false }

/-- `coffee_weight = (current_weight - self.vessel_weight) if current_weight is not None
else None`, the first line of every strategy's `step`. -/
def coffeeWeight (vessel_weight : ℚ) (current_weight : Option ℚ) : Option ℚ :=
  current_weight.map (fun w => w - vessel_weight)

/-- `DefaultBrewStrategy` (brew_strategy.py): bang-bang control with a dead band. -/
structure DefaultBrewStrategy where
  target_flow_rate : ℚ
  scale_interval : ℚ
  valve_interval : ℚ
  epsilon : ℚ
  target_weight : ℚ
  vessel_weight : ℚ
  coffee_target : ℚ
  deriving DecidableEq, Repr

/-- `DefaultBrewStrategy.step`.  The strategy holds no mutable state, so the
result is just the command and the next interval. -/
def DefaultBrewStrategy.step (s : DefaultBrewStrategy)
    (current_flow_rate current_weight : Option ℚ) : ValveCommand × ℚ :=
  if (coffeeWeight s.vessel_weight current_weight).any (fun cw => s.coffee_target ≤ cw) then
    (ValveCommand.STOP, 0)
  else
    match current_flow_rate with
    | none => (ValveCommand.NOOP, s.valve_interval)
    | some fr =>
      if |s.target_flow_rate - fr| ≤ s.epsilon then (ValveCommand.NOOP, s.valve_interval * 2)
      else if fr ≤ s.target_flow_rate then (ValveCommand.FORWARD, s.valve_interval)
      else (ValveCommand.BACKWARD, s.valve_interval)

/-- `PIDBrewStrategy` (brew_strategy.py): params plus the mutable PID state. -/
structure PIDBrewStrategy where
  target_flow_rate : ℚ
  scale_interval : ℚ
  valve_interval : ℚ
  target_weight : ℚ
  vessel_weight : ℚ
  coffee_target : ℚ
  kp : ℚ
  ki : ℚ
  kd : ℚ
  integral : ℚ
  prev_error : ℚ
  prev_timestamp : Option ℚ
  output_min : ℚ
  output_max : ℚ
  integral_limit : ℚ
  deriving DecidableEq, Repr

/-- `PIDBrewStrategy._compute_pid(error, dt)`: returns the clamped output and the
state with the mutated integral accumulator.  The two `let integral` lines mirror
the two source lines `self.integral += error * dt` and
`self.integral = max(-self.integral_limit, min(self.integral_limit, self.integral_limit))`
verbatim, inner argument included. -/
def PIDBrewStrategy.compute_pid (s : PIDBrewStrategy) (error dt : ℚ) : ℚ × PIDBrewStrategy :=
  let p_term := s.kp * error
  let integral := s.integral + error * dt
  let integral := max (-s.integral_limit) (min s.integral_limit s.integral_limit)
  let i_term := s.ki * integral
  let d_term := if dt > 0 then s.kd * (error - s.prev_error) / dt else 0
  let output := p_term + i_term + d_term
  let output := max s.output_min (min s.output_max output)
  (output, { s with integral := integral })

/-- `PIDBrewStrategy.step`; `now` stands for `time.time()`. -/
def PIDBrewStrategy.step (s : PIDBrewStrategy) (now : ℚ)
    (current_flow_rate current_weight : Option ℚ) : ValveCommand × ℚ × PIDBrewStrategy :=
  if (coffeeWeight s.vessel_weight current_weight).any (fun cw => s.coffee_target ≤ cw) then
    (ValveCommand.STOP, 0, s)
  else
    match current_flow_rate with
    | none => (ValveCommand.NOOP, s.valve_interval, s)
    | some fr =>
      let error := s.target_flow_rate - fr
      let dt := match s.prev_timestamp with
        | some t => now - t
        | none => s.valve_interval
      let res := s.compute_pid error dt
      let output : ℚ := res.1
      let s := { res.2 with prev_error := error, prev_timestamp := some now }
      if |output| < 1/10 then (ValveCommand.NOOP, s.valve_interval * 2, s)
      else if output > 0 then (ValveCommand.FORWARD, s.valve_interval, s)
      else (ValveCommand.BACKWARD, s.valve_interval, s)

/-- `KalmanPIDBrewStrategy` (brew_strategy.py): PID plus a Kalman filter. -/
structure KalmanPIDBrewStrategy where
  target_flow_rate : ℚ
  scale_interval : ℚ
  valve_interval : ℚ
  target_weight : ℚ
  vessel_weight : ℚ
  coffee_target : ℚ
  kp : ℚ
  ki : ℚ
  kd : ℚ
  integral : ℚ
  prev_error : ℚ
  prev_timestamp : Option ℚ
  output_min : ℚ
  output_max : ℚ
  integral_limit : ℚ
  kalman : KalmanFilter
  deriving DecidableEq, Repr

/-- `KalmanPIDBrewStrategy._compute_pid` (identical text to the PID variant). -/
def KalmanPIDBrewStrategy.compute_pid (s : KalmanPIDBrewStrategy) (error dt : ℚ) :
    ℚ × KalmanPIDBrewStrategy :=
  let p_term := s.kp * error
  let integral := s.integral + error * dt
  let integral := max (-s.integral_limit) (min s.integral_limit s.integral_limit)
  let i_term := s.ki * integral
  let d_term := if dt > 0 then s.kd * (error - s.prev_error) / dt else 0
  let output := p_term + i_term + d_term
  let output := max s.output_min (min s.output_max output)
  (output, { s with integral := integral })

/-- `KalmanPIDBrewStrategy.step`: the error is computed against the
Kalman-filtered flow rate. -/
def KalmanPIDBrewStrategy.step (s : KalmanPIDBrewStrategy) (now : ℚ)
    (current_flow_rate current_weight : Option ℚ) :
    ValveCommand × ℚ × KalmanPIDBrewStrategy :=
  if (coffeeWeight s.vessel_weight current_weight).any (fun cw => s.coffee_target ≤ cw) then
    (ValveCommand.STOP, 0, s)
  else
    match current_flow_rate with
    | none => (ValveCommand.NOOP, s.valve_interval, s)
    | some fr =>
      let kres := s.kalman.update (some fr)
      let s := { s with kalman := kres.2 }
      let filtered_flow_rate := kres.1
      let error := s.target_flow_rate - filtered_flow_rate
      let dt := match s.prev_timestamp with
        | some t => now - t
        | none => s.valve_interval
      let res := s.compute_pid error dt
      let output : ℚ := res.1
      let s := { res.2 with prev_error := error, prev_timestamp := some now }
      if |output| < 1/10 then (ValveCommand.NOOP, s.valve_interval * 2, s)
      else if output > 0 then (ValveCommand.FORWARD, s.valve_interval, s)
      else (ValveCommand.BACKWARD, s.valve_interval, s)

/-- The three gain regions of AdaptiveGainSchedulingBrewStrategy. -/
inductive GainRegion
  | low
  | med
  | high
  deriving DecidableEq, Repr

/-- `AdaptiveGainSchedulingBrewStrategy` (brew_strategy.py).  The `gains` dict is
flattened into the nine per-region fields; `kp`, `ki`, `kd` are the active gains. -/
structure AdaptiveGainSchedulingBrewStrategy where
  target_flow_rate : ℚ
  scale_interval : ℚ
  valve_interval : ℚ
  target_weight : ℚ
  vessel_weight : ℚ
  coffee_target : ℚ
  kp_low : ℚ
  ki_low : ℚ
  kd_low : ℚ
  kp_med : ℚ
  ki_med : ℚ
  kd_med : ℚ
  kp_high : ℚ
  ki_high : ℚ
  kd_high : ℚ
  kp : ℚ
  ki : ℚ
  kd : ℚ
  flow_rate_low_threshold : ℚ
  flow_rate_high_threshold : ℚ
  current_region : GainRegion
  adaptation_enabled : Bool
  adaptation_rate : ℚ
  sustained_error_count : ℕ
  adaptation_factor : ℚ
  integral : ℚ
  prev_error : ℚ
  prev_timestamp : Option ℚ
  output_min : ℚ
  output_max : ℚ
  integral_limit : ℚ

/-- `AdaptiveGainSchedulingBrewStrategy._determine_region(flow_rate)`. -/
def AdaptiveGainSchedulingBrewStrategy.determine_region
    (s : AdaptiveGainSchedulingBrewStrategy) (flow_rate : ℚ) : GainRegion :=
  if flow_rate < s.flow_rate_low_threshold then GainRegion.low
  else if flow_rate > s.flow_rate_high_threshold then GainRegion.high
  else GainRegion.med

/-- Lookup in `self.gains[...]`, the per-region (kp, ki, kd) table. -/
def AdaptiveGainSchedulingBrewStrategy.region_gains
    (s : AdaptiveGainSchedulingBrewStrategy) : GainRegion → ℚ × ℚ × ℚ
  | GainRegion.low => (s.kp_low, s.ki_low, s.kd_low)
  | GainRegion.med => (s.kp_med, s.ki_med, s.kd_med)
  | GainRegion.high => (s.kp_high, s.ki_high, s.kd_high)

/-- `AdaptiveGainSchedulingBrewStrategy._update_gains(flow_rate, error)`. -/
def AdaptiveGainSchedulingBrewStrategy.update_gains
    (s : AdaptiveGainSchedulingBrewStrategy) (flow_rate error : ℚ) :
    AdaptiveGainSchedulingBrewStrategy :=
  let new_region := s.determine_region flow_rate
  let s :=
    if new_region ≠ s.current_region then
      { s with current_region := new_region, adaptation_factor := 1,
               sustained_error_count := 0 }
    else s
  let base_gains := s.region_gains s.current_region
  let s :=
    if s.adaptation_enabled then
      if |error| > 1/100 then
        let s := { s with sustained_error_count := s.sustained_error_count + 1 }
        if s.sustained_error_count > 5 then
          { s with adaptation_factor := min 2 (s.adaptation_factor + s.adaptation_rate) }
        else s
      else
        { s with sustained_error_count := 0,
                 adaptation_factor := max 1 (s.adaptation_factor - s.adaptation_rate * 2) }
    else s
  { s with kp := base_gains.1 * s.adaptation_factor,
           ki := base_gains.2.1 * s.adaptation_factor,
           kd := base_gains.2.2 * s.adaptation_factor }

/-- `AdaptiveGainSchedulingBrewStrategy._compute_pid` (identical text to the PID
variant, using the currently active gains). -/
def AdaptiveGainSchedulingBrewStrategy.compute_pid
    (s : AdaptiveGainSchedulingBrewStrategy) (error dt : ℚ) :
    ℚ × AdaptiveGainSchedulingBrewStrategy :=
  let p_term := s.kp * error
  let integral := s.integral + error * dt
  let integral := max (-s.integral_limit) (min s.integral_limit s.integral_limit)
  let i_term := s.ki * integral
  let d_term := if dt > 0 then s.kd * (error - s.prev_error) / dt else 0
  let output := p_term + i_term + d_term
  let output := max s.output_min (min s.output_max output)
  (output, { s with integral := integral })

/-- `AdaptiveGainSchedulingBrewStrategy.step`. -/
def AdaptiveGainSchedulingBrewStrategy.step (s : AdaptiveGainSchedulingBrewStrategy)
    (now : ℚ) (current_flow_rate current_weight : Option ℚ) :
    ValveCommand × ℚ × AdaptiveGainSchedulingBrewStrategy :=
  if (coffeeWeight s.vessel_weight current_weight).any (fun cw => s.coffee_target ≤ cw) then
    (ValveCommand.STOP, 0, s)
  else
    match current_flow_rate with
    | none => (ValveCommand.NOOP, s.valve_interval, s)
    | some fr =>
      let error := s.target_flow_rate - fr
      let dt := match s.prev_timestamp with
        | some t => now - t
        | none => s.valve_interval
      let s := s.update_gains fr error
      let res := s.compute_pid error dt
      let output : ℚ := res.1
      let s := { res.2 with prev_error := error, prev_timestamp := some now }
      if |output| < 1/10 then (ValveCommand.NOOP, s.valve_interval * 2, s)
      else if output > 0 then (ValveCommand.FORWARD, s.valve_interval, s)
      else (ValveCommand.BACKWARD, s.valve_interval, s)

/-- `MPCBrewStrategy` (brew_strategy.py).  The debugging `history` list is not
modelled.  `is_init` embeds the source field `is_initialized`. -/
structure MPCBrewStrategy where
  target_flow_rate : ℚ
  scale_interval : ℚ
  valve_interval : ℚ
  target_weight : ℚ
  vessel_weight : ℚ
  coffee_target : ℚ
  horizon : ℕ
  plant_gain : ℚ
  plant_time_constant : ℚ
  q_error : ℚ
  q_control : ℚ
  q_delta : ℚ
  output_min : ℚ
  output_max : ℚ
  model_state : ℚ
  prev_control : ℚ
  prev_timestamp : Option ℚ
  is_init : Bool

/-- `MPCBrewStrategy._predict_plant_response(initial_state, control_sequence, dt)`:
first-order plant rollout `state = alpha * state + (1 - alpha) * K * u`, where
`alpha = rexp (-dt / tau)` stands for the source's `math.exp(-dt / tau)`
(or 0 when `tau <= 0`). -/
def MPCBrewStrategy.predict_plant_response (s : MPCBrewStrategy) (rexp : ℚ → ℚ)
    (initial_state : ℚ) (control_sequence : List ℚ) (dt : ℚ) : List ℚ :=
  let alpha := if s.plant_time_constant > 0 then rexp (-dt / s.plant_time_constant) else 0
  go alpha initial_state control_sequence
where
  go (alpha state : ℚ) : List ℚ → List ℚ
    | [] => []
    | u :: rest =>
      let state := alpha * state + (1 - alpha) * s.plant_gain * u
      state :: go alpha state rest

/-- The cost accumulation loop of `MPCBrewStrategy._solve_mpc` for one candidate:
`k` is the enumeration index, the remaining predictions are the list.  `delta_u`
is `u - u_prev` only at `k = 0`. -/
def mpcCostFrom (target_flow_rate q_error q_control q_delta u_prev u_candidate : ℚ) :
    ℕ → List ℚ → ℚ
  | _, [] => 0
  | k, predicted_flow :: rest =>
    let error := target_flow_rate - predicted_flow
    let delta_u := if k = 0 then u_candidate - u_prev else 0
    (q_error * error * error + q_control * u_candidate * u_candidate +
        q_delta * delta_u * delta_u) +
      mpcCostFrom target_flow_rate q_error q_control q_delta u_prev u_candidate (k + 1) rest

/-- Total cost of one (already clamped) candidate in `_solve_mpc`: build the
constant control sequence `[u] + [u] * (horizon - 1)`, predict, and accumulate. -/
def MPCBrewStrategy.candidate_cost (s : MPCBrewStrategy) (rexp : ℚ → ℚ)
    (current_flow_rate dt u_candidate : ℚ) : ℚ :=
  let control_seq := u_candidate :: List.replicate (s.horizon - 1) u_candidate
  let predictions := s.predict_plant_response rexp current_flow_rate control_seq dt
  mpcCostFrom s.target_flow_rate s.q_error s.q_control s.q_delta s.prev_control
    u_candidate 0 predictions

/-- The candidate loop of `_solve_mpc`: `best_cost = float('inf')` is modelled as
`none`, so the first candidate always improves on it; afterwards only a strictly
smaller cost replaces the incumbent. -/
def MPCBrewStrategy.solve_mpc_loop (s : MPCBrewStrategy) (rexp : ℚ → ℚ)
    (current_flow_rate dt : ℚ) :
    List ℚ → ℚ → Option ℚ → ℚ
  | [], best_u, _ => best_u
  | c :: rest, best_u, best_cost =>
    let u_candidate := max s.output_min (min s.output_max c)
    let cost := s.candidate_cost rexp current_flow_rate dt u_candidate
    match best_cost with
    | none => s.solve_mpc_loop rexp current_flow_rate dt rest u_candidate (some cost)
    | some bc =>
      if cost < bc then s.solve_mpc_loop rexp current_flow_rate dt rest u_candidate (some cost)
      else s.solve_mpc_loop rexp current_flow_rate dt rest best_u (some bc)

/-- The fixed delta grid of `_solve_mpc`. -/
def mpcDeltas : List ℚ := [-2, -1, -1/2, -1/4, 0, 1/4, 1/2, 1, 2]

/-- `MPCBrewStrategy._solve_mpc(current_flow_rate, dt)`. -/
def MPCBrewStrategy.solve_mpc (s : MPCBrewStrategy) (rexp : ℚ → ℚ)
    (current_flow_rate dt : ℚ) : ℚ :=
  let u_current := s.prev_control
  let candidates := mpcDeltas.map (fun delta => u_current + delta)
  s.solve_mpc_loop rexp current_flow_rate dt candidates u_current none

/-- `MPCBrewStrategy.step`. -/
def MPCBrewStrategy.step (s : MPCBrewStrategy) (rexp : ℚ → ℚ) (now : ℚ)
    (current_flow_rate current_weight : Option ℚ) : ValveCommand × ℚ × MPCBrewStrategy :=
  if (coffeeWeight s.vessel_weight current_weight).any (fun cw => s.coffee_target ≤ cw) then
    (ValveCommand.STOP, 0, s)
  else
    match current_flow_rate with
    | none => (ValveCommand.NOOP, s.valve_interval, s)
    | some fr =>
      let dt := match s.prev_timestamp with
        | some t => now - t
        | none => s.valve_interval
      let s := match s.prev_timestamp with
        | some _ => s
        | none => { s with model_state := fr, is_init := true }
      let s :=
        if s.is_init then
          let alpha := if s.plant_time_constant > 0 then rexp (-dt / s.plant_time_constant)
            else 0
          { s with model_state :=
              alpha * s.model_state + (1 - alpha) * s.plant_gain * s.prev_control }
        else s
      let output : ℚ := s.solve_mpc rexp fr dt
      let s := { s with prev_control := output, prev_timestamp := some now }
      if |output| < 1/10 then (ValveCommand.NOOP, s.valve_interval * 2, s)
      else if output > 0 then (ValveCommand.FORWARD, s.valve_interval, s)
      else (ValveCommand.BACKWARD, s.valve_interval, s)

/-- Python's `int()` conversion on a float: truncation toward zero. -/
def pyInt (x : ℚ) : ℤ :=
  if 0 ≤ x then ⌊x⌋ else ⌈x⌉

/-- `SmithPredictorAdvancedBrewStrategy` (brew_strategy.py).  The debugging
`history` list is not modelled. -/
structure SmithPredictorAdvancedBrewStrategy where
  target_flow_rate : ℚ
  scale_interval : ℚ
  valve_interval : ℚ
  target_weight : ℚ
  vessel_weight : ℚ
  coffee_target : ℚ
  kp : ℚ
  ki : ℚ
  kd : ℚ
  integral : ℚ
  prev_error : ℚ
  prev_timestamp : Option ℚ
  output_min : ℚ
  output_max : ℚ
  integral_limit : ℚ
  dead_time : ℚ
  plant_gain : ℚ
  plant_time_constant : ℚ
  model_output : ℚ
  delay_buffer : List ℚ
  delay_samples : ℤ
  kalman : KalmanFilter

/-- `SmithPredictorAdvancedBrewStrategy.__init__`: in particular
`delay_samples = max(1, int(dead_time / valve_interval))` and
`kalman = KalmanFilter(q=q, r=r, initial_estimate=target_flow_rate)` (the
Python default `initial_error=1.0` applies). -/
def SmithPredictorAdvancedBrewStrategy.init
    (target_flow_rate scale_interval valve_interval target_weight vessel_weight
      kp ki kd dead_time plant_gain plant_time_constant q r
      output_min output_max integral_limit : ℚ) :
    SmithPredictorAdvancedBrewStrategy :=
  { target_flow_rate := target_flow_rate, scale_interval := scale_interval,
    valve_interval := valve_interval, target_weight := target_weight,
    vessel_weight := vessel_weight, coffee_target := target_weight - vessel_weight,
    kp := kp, ki := ki, kd := kd,
    integral := 0, prev_error := 0, prev_timestamp := none,
    output_min := output_min, output_max := output_max, integral_limit := integral_limit,
    dead_time := dead_time, plant_gain := plant_gain,
    plant_time_constant := plant_time_constant,
    model_output := 0, delay_buffer := [],
    delay_samples := max 1 (pyInt (dead_time / valve_interval)),
    kalman := KalmanFilter.init q r target_flow_rate 1 }

/-- `SmithPredictorAdvancedBrewStrategy._update_plant_model(valve_command, dt)`:
advance the first-order plant model on the oldest buffered control signal, then
append the current command and evict the oldest entry if over capacity. -/
def SmithPredictorAdvancedBrewStrategy.update_plant_model
    (s : SmithPredictorAdvancedBrewStrategy) (rexp : ℚ → ℚ) (valve_command dt : ℚ) :
    SmithPredictorAdvancedBrewStrategy :=
  let alpha := if s.plant_time_constant > 0 then rexp (-dt / s.plant_time_constant) else 0
  let delayed_control := s.delay_buffer.headD 0
  let model_output := alpha * s.model_output + (1 - alpha) * s.plant_gain * delayed_control
  let buf := s.delay_buffer ++ [valve_command]
  let buf := if (buf.length : ℤ) > s.delay_samples then buf.tail else buf
  { s with model_output := model_output, delay_buffer := buf }

/-- `SmithPredictorAdvancedBrewStrategy._compute_pid` (identical text to the PID
variant). -/
def SmithPredictorAdvancedBrewStrategy.compute_pid
    (s : SmithPredictorAdvancedBrewStrategy) (error dt : ℚ) :
    ℚ × SmithPredictorAdvancedBrewStrategy :=
  let p_term := s.kp * error
  let integral := s.integral + error * dt
  let integral := max (-s.integral_limit) (min s.integral_limit s.integral_limit)
  let i_term := s.ki * integral
  let d_term := if dt > 0 then s.kd * (error - s.prev_error) / dt else 0
  let output := p_term + i_term + d_term
  let output := max s.output_min (min s.output_max output)
  (output, { s with integral := integral })

/-- `SmithPredictorAdvancedBrewStrategy.step`: the control error is computed
against the plant-model prediction; the Kalman-filtered measurement is kept for
monitoring only (its state update is retained). -/
def SmithPredictorAdvancedBrewStrategy.step (s : SmithPredictorAdvancedBrewStrategy)
    (rexp : ℚ → ℚ) (now : ℚ) (current_flow_rate current_weight : Option ℚ) :
    ValveCommand × ℚ × SmithPredictorAdvancedBrewStrategy :=
  if (coffeeWeight s.vessel_weight current_weight).any (fun cw => s.coffee_target ≤ cw) then
    (ValveCommand.STOP, 0, s)
  else
    match current_flow_rate with
    | none => (ValveCommand.NOOP, s.valve_interval, s)
    | some fr =>
      let first_call := s.prev_timestamp.isNone
      let dt := match s.prev_timestamp with
        | some t => now - t
        | none => s.valve_interval
      let s := if first_call then { s with model_output := fr } else s
      let kres := s.kalman.update (some fr)
      let s := { s with kalman := kres.2 }
      let s :=
        if first_call then s
        else
          let pidres : ℚ × SmithPredictorAdvancedBrewStrategy :=
            if s.prev_error ≠ 0 then s.compute_pid s.prev_error dt else (0, s)
          let last_command : ℚ := pidres.1
          pidres.2.update_plant_model rexp last_command dt
      let predicted_flow_rate := s.model_output
      let error := s.target_flow_rate - predicted_flow_rate
      let res := s.compute_pid error dt
      let output : ℚ := res.1
      let s := { res.2 with prev_error := error, prev_timestamp := some now }
      if |output| < 1/10 then (ValveCommand.NOOP, s.valve_interval * 2, s)
      else if output > 0 then (ValveCommand.FORWARD, s.valve_interval, s)
      else (ValveCommand.BACKWARD, s.valve_interval, s)

/-- `InfluxDBTimeSeries.calculate_flow_rate_from_derivatives(readings)`
(time_series.py): readings are (timestamp-in-seconds, weight) pairs sorted
ascending; the rate is the derivative between the first and last readings. -/
def calculate_flow_rate_from_derivatives (readings : List (ℚ × ℚ)) : Option ℚ :=
  if readings.length < 2 then none
  else
    let first := readings.headD (0, 0)
    let last := readings.getLastD (0, 0)
    let time_diff := last.1 - first.1
    if time_diff ≤ 0 then none
    else some ((last.2 - first.2) / time_diff)

/-- A value sitting in a strategy-parameter bag (a JSON-ish Python object):
a number, a list of values, or a string. -/
inductive ParamValue
  | num (x : ℚ)
  | arr (xs : List ParamValue)
  | strv (s : String)

/-- Whether a bag value is a plain number (Python `isinstance(value, (int, float))`). -/
def ParamValue.isNum : ParamValue → Bool
  | ParamValue.num _ => true
  | _ => false

/-- Python `dict.get(key, default)` over an association-list bag. -/
def dictGet (bag : List (String × ParamValue)) (key : String) (default : ParamValue) :
    ParamValue :=
  match bag.find? (fun kv => kv.1 == key) with
  | some kv => kv.2
  | none => default

/-- `_extract_float(value, default)` from
backend/src/brewserver/strategies/DefaultBrewStrategy.py: a number passes
through, a nonempty list/tuple whose first element is a number yields that
element, anything else logs a warning and yields the default. -/
def extract_float (value : Option ParamValue) (default : ℚ) : ℚ :=
  match value with
  | none => default
  | some (ParamValue.num x) => x
  | some (ParamValue.arr (ParamValue.num x :: _)) => x
  | some _ => default

/-- The raw constructor arguments that `PIDBrewStrategy.from_params` in the
monolithic brew_strategy.py passes for the strategy-specific parameters: plain
`strategy_params.get(key, default)` with no coercion. -/
structure PIDFromParamsArgs where
  kp : ParamValue
  ki : ParamValue
  kd : ParamValue
  output_min : ParamValue
  output_max : ParamValue
  integral_limit : ParamValue

/-- `PIDBrewStrategy.from_params(strategy_params, base_params)` of the monolithic
brew_strategy.py, restricted to the strategy-specific numeric parameters. -/
def PIDBrewStrategy.from_params_args (strategy_params : List (String × ParamValue)) :
    PIDFromParamsArgs :=
  { kp := dictGet strategy_params "kp" (ParamValue.num 1),
    ki := dictGet strategy_params "ki" (ParamValue.num (1/10)),
    kd := dictGet strategy_params "kd" (ParamValue.num (1/20)),
    output_min := dictGet strategy_params "output_min" (ParamValue.num (-10)),
    output_max := dictGet strategy_params "output_max" (ParamValue.num 10),
    integral_limit := dictGet strategy_params "integral_limit" (ParamValue.num 100) }

/-- The numeric strategy parameters that `KalmanPIDBrewStrategy.from_params` in
backend/src/brewserver/strategies/KalmanPIDBrewStrategy.py resolves, each through
`_extract_float(strategy_params.get(key), default)`. -/
structure KalmanPIDParams where
  kp : ℚ
  ki : ℚ
  kd : ℚ
  q : ℚ
  r : ℚ
  output_min : ℚ
  output_max : ℚ
  integral_limit : ℚ
  deriving DecidableEq, Repr

/-- `KalmanPIDBrewStrategy.from_params` (strategies package), strategy-specific
numeric parameters.  `strategy_params.get(key)` with no default is `dictGet?`,
i.e. an `Option`. -/
def KalmanPID.from_params_pkg (strategy_params : List (String × ParamValue)) :
    KalmanPIDParams :=
  let get := fun key => (strategy_params.find? (fun kv => kv.1 == key)).map Prod.snd
  { kp := extract_float (get "kp") 1,
    ki := extract_float (get "ki") (1/20),
    kd := extract_float (get "kd") (1/10),
    q := extract_float (get "q") (1/2000),
    r := extract_float (get "r") (3/20),
    output_min := extract_float (get "output_min") (-10),
    output_max := extract_float (get "output_max") 10,
    integral_limit := extract_float (get "integral_limit") 100 }

/-- `Brew` (model.py), the fields start_brew reads and writes. -/
structure Brew where
  id : String
  status : BrewState
  target_weight : ℚ
  vessel_weight : ℚ
  time_started : ℚ
  deriving DecidableEq, Repr

/-- Error severity levels (model.py `ErrorSeverity`). -/
inductive ErrorSeverity
  | info
  | warning
  | error
  | critical
  deriving DecidableEq, Repr

/-- Error categories (model.py `ErrorCategory`), restricted to the ones
start_brew can emit. -/
inductive ErrorCategory
  | scale
  | brew
  deriving DecidableEq, Repr

/-- `BrewErrorResponse` (model.py), the fields `create_error_response` fills. -/
structure BrewErrorResponse where
  error : String
  category : ErrorCategory
  severity : ErrorSeverity
  retryable : Bool
  brew_id : Option String
  recovery_suggestion : Option String
  deriving DecidableEq, Repr

/-- `handle_exception(BrewConflictError(cur_id), brew_id)` (error_handling.py):
the branch for `BrewConflictError` builds a warning-severity, non-retryable
brew-category response. -/
def handleBrewConflict (brew_id : Option String) : BrewErrorResponse :=
  { error := "A brew is already in progress",
    category := ErrorCategory.brew,
    severity := ErrorSeverity.warning,
    retryable := false,
    brew_id := brew_id,
    recovery_suggestion := some "Stop the current brew before starting a new one." }

/-- The observable outcome of the `start_brew` endpoint (server.py): an HTTP
error with a status code and structured detail, or a started brew. -/
inductive StartBrewOutcome
  | httpError (status_code : ℕ) (detail : BrewErrorResponse)
  | started (brew_id : String)
  deriving DecidableEq, Repr

/-- `start_brew` (server.py), as a pure function of the global `cur_brew`, the
scale's availability, and the `Brew` value that would be created on success
(its id and timestamps come from uuid4/now, which are external).  Returns the
outcome and the new value of `cur_brew`. -/
def start_brew (cur_brew : Option Brew) (scale_connects : Bool) (new_brew : Brew) :
    StartBrewOutcome × Option Brew :=
  match cur_brew with
  | some b =>
    if b.status = BrewState.BREWING ∨ b.status = BrewState.PAUSED then
      (StartBrewOutcome.httpError 409 (handleBrewConflict (some b.id)), cur_brew)
    else if ¬scale_connects then
      (StartBrewOutcome.httpError 503
        { error := "Could not connect to scale", category := ErrorCategory.scale,
          severity := ErrorSeverity.error, retryable := true, brew_id := none,
          recovery_suggestion := none }, cur_brew)
    else if b.status = BrewState.COMPLETED ∨ b.status = BrewState.ERROR then
      (StartBrewOutcome.started new_brew.id, some new_brew)
    else
      (StartBrewOutcome.httpError 409 (handleBrewConflict (some b.id)), cur_brew)
  | none =>
    if ¬scale_connects then
      (StartBrewOutcome.httpError 503
        { error := "Could not connect to scale", category := ErrorCategory.scale,
          severity := ErrorSeverity.error, retryable := true, brew_id := none,
          recovery_suggestion := none }, cur_brew)
    else
      (StartBrewOutcome.started new_brew.id, some new_brew)

/-- C10: for an initialized KalmanSmoother with q ≥ 0, r > 0 and p ≥ 0, the
Kalman gain k = (p+q)/(p+q+r) lies in [0, 1), the estimate returned by
`update m` lies between the previous estimate x and the measurement m
inclusive, and the updated error covariance remains ≥ 0. -/
theorem kalman_update_convex_and_cov_nonneg (f : KalmanFilter) (m : ℚ)
    (hinit : f.is_init = true) (hq : 0 ≤ f.q) (hr : 0 < f.r) (hp : 0 ≤ f.p) :
    (0 ≤ (f.p + f.q) / (f.p + f.q + f.r) ∧ (f.p + f.q) / (f.p + f.q + f.r) < 1)
    ∧ min f.x m ≤ (f.update (some m)).1
    ∧ (f.update (some m)).1 ≤ max f.x m
    ∧ 0 ≤ ((f.update (some m)).2).p := by
  have hP : 0 ≤ f.p + f.q := by linarith
  have hD : 0 < f.p + f.q + f.r := by linarith
  have hk0 : 0 ≤ (f.p + f.q) / (f.p + f.q + f.r) := div_nonneg hP (le_of_lt hD)
  have hk1 : (f.p + f.q) / (f.p + f.q + f.r) < 1 := by
    rw [div_lt_one hD]; linarith
  simp only [KalmanFilter.update, hinit, Bool.true_eq_false, if_false]
  refine ⟨⟨hk0, hk1⟩, ?_, ?_, ?_⟩
  · rcases le_total f.x m with h | h
    · have : 0 ≤ ((f.p + f.q) / (f.p + f.q + f.r)) * (m - f.x) := by
        apply mul_nonneg hk0; linarith
      simp only [min_eq_left h]; linarith
    · have : ((f.p + f.q) / (f.p + f.q + f.r)) * (m - f.x) ≥ 1 * (m - f.x) := by
        apply mul_le_mul_of_nonpos_right (le_of_lt hk1) (by linarith)
      simp only [min_eq_right h]; linarith
  · rcases le_total f.x m with h | h
    · have : ((f.p + f.q) / (f.p + f.q + f.r)) * (m - f.x) ≤ 1 * (m - f.x) := by
        apply mul_le_mul_of_nonneg_right (le_of_lt hk1) (by linarith)
      simp only [max_eq_right h]; linarith
    · have : ((f.p + f.q) / (f.p + f.q + f.r)) * (m - f.x) ≤ 0 := by
        apply mul_nonpos_of_nonneg_of_nonpos hk0; linarith
      simp only [max_eq_left h]; linarith
  · have : (f.p + f.q) / (f.p + f.q + f.r) ≤ 1 := le_of_lt hk1
    have h1k : 0 ≤ 1 - (f.p + f.q) / (f.p + f.q + f.r) := by linarith
    exact mul_nonneg h1k hP

/-- Witness for C10 at the filter a KalmanPID strategy constructs
(q = 0.001, r = 0.1, initial estimate 0.05) and measurement 1. -/
theorem kalman_update_convex_and_cov_nonneg_witness :
    let f := KalmanFilter.init (1/1000) (1/10) (1/20) 1
    (0 ≤ (f.p + f.q) / (f.p + f.q + f.r) ∧ (f.p + f.q) / (f.p + f.q + f.r) < 1)
    ∧ min f.x 1 ≤ (f.update (some 1)).1
    ∧ (f.update (some 1)).1 ≤ max f.x 1
    ∧ 0 ≤ ((f.update (some 1)).2).p :=
  kalman_update_convex_and_cov_nonneg (KalmanFilter.init (1/1000) (1/10) (1/20) 1) 1
    (by decide) (by norm_num [KalmanFilter.init]) (by norm_num [KalmanFilter.init])
    (by norm_num [KalmanFilter.init])

/-- C4 (amended): for an initialized filter with q > 0, r > 0 and p ≥ 0, one
update realises the covariance recurrence p' = (1 − k)·(p + q) with
k = (p+q)/(p+q+r); the updated covariance is bounded below by the positive
constant q·r/(q+r), so repeated updates cannot drive it to 0; and an update
decreases the covariance exactly when p·(p+q) > q·r, i.e. above the fixed
point — below it the covariance grows. -/
theorem kalman_cov_recurrence_and_lower_bound (f : KalmanFilter) (m : ℚ)
    (hinit : f.is_init = true) (hq : 0 < f.q) (hr : 0 < f.r) (hp : 0 ≤ f.p) :
    ((f.update (some m)).2).p
        = (1 - (f.p + f.q) / (f.p + f.q + f.r)) * (f.p + f.q)
    ∧ f.q * f.r / (f.q + f.r) ≤ ((f.update (some m)).2).p
    ∧ (((f.update (some m)).2).p < f.p ↔ f.q * f.r < f.p * (f.p + f.q)) := by
  have hD : 0 < f.p + f.q + f.r := by linarith
  have hQR : 0 < f.q + f.r := by linarith
  simp only [KalmanFilter.update, hinit, Bool.true_eq_false, if_false]
  have hform : (1 - (f.p + f.q) / (f.p + f.q + f.r)) * (f.p + f.q)
      = f.r * (f.p + f.q) / (f.p + f.q + f.r) := by
    field_simp
  refine ⟨trivial, ?_, ?_⟩
  · rw [hform, div_le_div_iff hQR hD]
    nlinarith [mul_nonneg hp (mul_nonneg hr.le hr.le)]
  · rw [hform, div_lt_iff hD]
    constructor
    · intro h; nlinarith
    · intro h; nlinarith

/-- Witness for the amended C4 at q = 1, r = 1, p = 2 (a state above the fixed
point), measurement 0. -/
theorem kalman_cov_recurrence_and_lower_bound_witness :
    let f := KalmanFilter.init 1 1 0 2
    ((f.update (some 0)).2).p
        = (1 - (f.p + f.q) / (f.p + f.q + f.r)) * (f.p + f.q)
    ∧ f.q * f.r / (f.q + f.r) ≤ ((f.update (some 0)).2).p
    ∧ (((f.update (some 0)).2).p < f.p ↔ f.q * f.r < f.p * (f.p + f.q)) :=
  kalman_cov_recurrence_and_lower_bound (KalmanFilter.init 1 1 0 2) 0
    (by decide) (by norm_num [KalmanFilter.init]) (by norm_num [KalmanFilter.init])
    (by norm_num [KalmanFilter.init])

/-- C4 counterexample: an initialized filter with q = 1 > 0, r = 1 > 0 and
covariance p = 0 (constructible directly, `initial_error=0`), fed the same
measurement 0 as its estimate, has its covariance INCREASE from 0 to 1/2 on the
next update — the covariance sequence is not monotonically decreasing and,
being bounded below by q·r/(q+r) = 1/2 thereafter, does not converge to 0. -/
theorem kalman_cov_not_monotone_counterexample :
    let f := KalmanFilter.init 1 1 0 0
    f.is_init = true ∧ 0 < f.q ∧ 0 < f.r
      ∧ f.p < ((f.update (some 0)).2).p := by
  refine ⟨by decide, by norm_num [KalmanFilter.init], by norm_num [KalmanFilter.init], ?_⟩
  norm_num [KalmanFilter.init, KalmanFilter.update]

/-- C3: the filter a strategy constructs (`KalmanFilter(q=0.001, r=0.1,
initial_estimate=target_flow_rate)`, Python default `initial_error=1.0`) is
already marked initialized at construction (1.0 < 1e9), so its FIRST present
measurement does not snap the estimate to the measurement and does not set
p = r; it runs the regular predict/update cycle instead.  The absent-measurement
half of the claim does hold: `update(None)` returns the estimate unchanged. -/
theorem kalman_first_update_does_not_snap :
    (KalmanFilter.init (1/1000) (1/10) (1/20) 1).is_init = true
    ∧ ((KalmanFilter.init (1/1000) (1/10) (1/20) 1).update (some 1)).1 ≠ 1
    ∧ (((KalmanFilter.init (1/1000) (1/10) (1/20) 1).update (some 1)).2).p
        ≠ (KalmanFilter.init (1/1000) (1/10) (1/20) 1).r
    ∧ (∀ g : KalmanFilter, g.update none = (g.x, g)) := by
  refine ⟨by decide, ?_, ?_, fun g => rfl⟩
  · norm_num [KalmanFilter.init, KalmanFilter.update]
  · norm_num [KalmanFilter.init, KalmanFilter.update]

/-- A `PIDBrewStrategy` with the documented defaults (kp=1, ki=0.1, kd=0.05,
output ±10, integral_limit=100, target 1337g, vessel 229g) in its freshly
constructed state (integral 0, prev_error 0, no previous timestamp). -/
def pidDefault : PIDBrewStrategy :=
  { target_flow_rate := 1/20, scale_interval := 1/2, valve_interval := 60,
    target_weight := 1337, vessel_weight := 229, coffee_target := 1337 - 229,
    kp := 1, ki := 1/10, kd := 1/20, integral := 0, prev_error := 0,
    prev_timestamp := none, output_min := -10, output_max := 10,
    integral_limit := 100 }

/-- C2: in every PID-family strategy the anti-windup line
`self.integral = max(-limit, min(limit, limit))` is degenerate — after every
`_compute_pid` call the stored integral equals `max(-limit, limit)` (i.e. the
limit itself for a nonnegative limit), NOT the clamp of the accumulated
`integral + error*dt`.  Concretely, from integral 0 with error 1, dt 1 and
limit 100 the code stores 100 where the claimed clamp yields 1. -/
theorem pid_integral_clamp_degenerate :
    (∀ (s : PIDBrewStrategy) (error dt : ℚ),
      ((s.compute_pid error dt).2).integral = max (-s.integral_limit) s.integral_limit)
    ∧ (∀ (s : KalmanPIDBrewStrategy) (error dt : ℚ),
      ((s.compute_pid error dt).2).integral = max (-s.integral_limit) s.integral_limit)
    ∧ (∀ (s : AdaptiveGainSchedulingBrewStrategy) (error dt : ℚ),
      ((s.compute_pid error dt).2).integral = max (-s.integral_limit) s.integral_limit)
    ∧ (∀ (s : SmithPredictorAdvancedBrewStrategy) (error dt : ℚ),
      ((s.compute_pid error dt).2).integral = max (-s.integral_limit) s.integral_limit)
    ∧ ((pidDefault.compute_pid 1 1).2).integral = 100
    ∧ max (-pidDefault.integral_limit)
        (min pidDefault.integral_limit (pidDefault.integral + 1 * 1)) = 1 := by
  refine ⟨?_, ?_, ?_, ?_, ?_, by norm_num [pidDefault]⟩
  · intro s error dt
    simp [PIDBrewStrategy.compute_pid, min_self]
  · intro s error dt
    simp [KalmanPIDBrewStrategy.compute_pid, min_self]
  · intro s error dt
    simp [AdaptiveGainSchedulingBrewStrategy.compute_pid, min_self]
  · intro s error dt
    simp [SmithPredictorAdvancedBrewStrategy.compute_pid, min_self]
  · norm_num [PIDBrewStrategy.compute_pid, pidDefault]

/-- getLastD on a list with an appended last element. -/
theorem getLastD_append_single {α : Type} (l : List α) (a d : α) :
    (l ++ [a]).getLastD d = a := by
  induction l with
  | nil => rfl
  | cons x xs ih =>
    cases xs with
    | nil => rfl
    | cons y ys => simpa using ih

/-- C5: the flow-rate estimate is none for fewer than 2 samples; otherwise it is
(last.weight − first.weight) / (last.time − first.time), and none when that time
delta is ≤ 0. -/
theorem calculate_flow_rate_characterization :
    (∀ readings : List (ℚ × ℚ), readings.length < 2 →
      calculate_flow_rate_from_derivatives readings = none)
    ∧ (∀ (t0 w0 tn wn : ℚ) (mid : List (ℚ × ℚ)),
      calculate_flow_rate_from_derivatives ((t0, w0) :: (mid ++ [(tn, wn)])) =
        if tn - t0 ≤ 0 then none else some ((wn - w0) / (tn - t0))) := by
  constructor
  · intro readings h
    simp only [calculate_flow_rate_from_derivatives, if_pos h]
  · intro t0 w0 tn wn mid
    have hlen : ¬ ((t0, w0) :: (mid ++ [(tn, wn)])).length < 2 := by
      simp [List.length_append]
    have hlast : (((t0, w0) :: (mid ++ [(tn, wn)]))).getLastD (0, 0) = (tn, wn) := by
      have := getLastD_append_single ((t0, w0) :: mid) (tn, wn) ((0 : ℚ), (0 : ℚ))
      simpa using this
    simp only [calculate_flow_rate_from_derivatives, if_neg hlen, List.headD_cons, hlast]

/-- Witness for C5: the empty list and a concrete 2-sample window
[(0s, 0g), (10s, 5g)], giving 0.5 g/s. -/
theorem calculate_flow_rate_characterization_witness :
    calculate_flow_rate_from_derivatives [] = none
    ∧ calculate_flow_rate_from_derivatives [(0, 0), (10, 5)] = some (1/2) := by
  constructor
  · exact calculate_flow_rate_characterization.1 [] (by decide)
  · have h := calculate_flow_rate_characterization.2 0 0 10 5 []
    norm_num at h
    exact h

/-- C8: if a brew exists whose status is BREWING or PAUSED, start_brew answers
HTTP 409 with the brew-conflict error response (brew category, warning severity,
non-retryable, carrying the existing brew id) and leaves the existing brew
unchanged. -/
theorem start_brew_conflict_rejects (cur : Option Brew) (scale_connects : Bool)
    (new_brew b : Brew) (hcur : cur = some b)
    (hstatus : b.status = BrewState.BREWING ∨ b.status = BrewState.PAUSED) :
    start_brew cur scale_connects new_brew
      = (StartBrewOutcome.httpError 409 (handleBrewConflict (some b.id)), some b)
    ∧ (start_brew cur scale_connects new_brew).2 = cur
    ∧ (handleBrewConflict (some b.id)).retryable = false
    ∧ (handleBrewConflict (some b.id)).category = ErrorCategory.brew
    ∧ (handleBrewConflict (some b.id)).brew_id = some b.id := by
  subst hcur
  simp only [start_brew, if_pos hstatus]
  exact ⟨trivial, trivial, rfl, rfl, rfl⟩

/-- A brew currently in progress. -/
def brewingExample : Brew :=
  { id := "brew-1", status := BrewState.BREWING, target_weight := 1337,
    vessel_weight := 229, time_started := 0 }

/-- The brew a successful start would have created. -/
def newBrewExample : Brew :=
  { id := "brew-2", status := BrewState.BREWING, target_weight := 1337,
    vessel_weight := 229, time_started := 100 }

/-- Witness for C8: starting while `brewingExample` is BREWING is rejected. -/
theorem start_brew_conflict_rejects_witness :
    start_brew (some brewingExample) true newBrewExample
      = (StartBrewOutcome.httpError 409 (handleBrewConflict (some brewingExample.id)),
          some brewingExample)
    ∧ (start_brew (some brewingExample) true newBrewExample).2 = some brewingExample
    ∧ (handleBrewConflict (some brewingExample.id)).retryable = false
    ∧ (handleBrewConflict (some brewingExample.id)).category = ErrorCategory.brew
    ∧ (handleBrewConflict (some brewingExample.id)).brew_id = some brewingExample.id :=
  start_brew_conflict_rejects (some brewingExample) true newBrewExample brewingExample
    rfl (Or.inl rfl)

/-- C9 counterexample: the monolithic `PIDBrewStrategy.from_params` reads
parameters with plain `dict.get` and no coercion, so a single-element list
standing in for the scalar kp is stored as-is — a non-numeric value propagates
into the strategy instead of being coerced to 1.5 or defaulted. -/
theorem from_params_propagates_nonnumeric :
    (PIDBrewStrategy.from_params_args
        [("kp", ParamValue.arr [ParamValue.num (3/2)])]).kp
      = ParamValue.arr [ParamValue.num (3/2)]
    ∧ ((PIDBrewStrategy.from_params_args
        [("kp", ParamValue.arr [ParamValue.num (3/2)])]).kp).isNum = false := by
  exact ⟨rfl, rfl⟩

/-- C9 (amended): the coercion contract holds for `_extract_float` of the
strategies package (a number passes through; a list headed by a number yields
that number; every other shape falls back to the default, so the result is
always numeric), and the package-level `KalmanPIDBrewStrategy.from_params`
routes every numeric field through it — but the monolithic
brew_strategy.py `from_params` (the one server.py imports) does not. -/
theorem extract_float_coerces_or_defaults :
    (∀ (x d : ℚ), extract_float (some (ParamValue.num x)) d = x)
    ∧ (∀ (x : ℚ) (rest : List ParamValue) (d : ℚ),
        extract_float (some (ParamValue.arr (ParamValue.num x :: rest))) d = x)
    ∧ (∀ (v : Option ParamValue) (d : ℚ),
        extract_float v d = d
        ∨ ∃ x : ℚ, extract_float v d = x
            ∧ (v = some (ParamValue.num x)
              ∨ ∃ rest, v = some (ParamValue.arr (ParamValue.num x :: rest))))
    ∧ (∀ bag : List (String × ParamValue),
        (KalmanPID.from_params_pkg bag).kp
          = extract_float ((bag.find? (fun kv => kv.1 == "kp")).map Prod.snd) 1) := by
  refine ⟨fun x d => rfl, fun x rest d => rfl, ?_, fun bag => rfl⟩
  intro v d
  match v with
  | none => exact Or.inl rfl
  | some (ParamValue.num x) => exact Or.inr ⟨x, rfl, Or.inl rfl⟩
  | some (ParamValue.arr []) => exact Or.inl rfl
  | some (ParamValue.arr (ParamValue.num x :: rest)) =>
    exact Or.inr ⟨x, rfl, Or.inr ⟨rest, rfl⟩⟩
  | some (ParamValue.arr (ParamValue.arr ys :: rest)) => exact Or.inl rfl
  | some (ParamValue.arr (ParamValue.strv t :: rest)) => exact Or.inl rfl
  | some (ParamValue.strv t) => exact Or.inl rfl

/-- C6 counterexample: with dead_time = 30 and valve_interval = 4 (both > 0) the
source computes `max(1, int(30 / 4)) = 7` — `int()` truncates — while the
claimed `max(1, round(30 / 4)) = 8`. -/
theorem smith_delay_capacity_not_round :
    let s := SmithPredictorAdvancedBrewStrategy.init (1/20) (1/2) 4 1337 229
      1 (1/10) (1/20) 30 (1/100) 10 (1/1000) (1/10) (-10) 10 100
    s.dead_time = 30 ∧ s.valve_interval = 4
    ∧ s.delay_samples = 7 ∧ max 1 (round ((30 : ℚ) / 4)) = 8 := by
  refine ⟨rfl, rfl, ?_, ?_⟩
  · norm_num [SmithPredictorAdvancedBrewStrategy.init, pyInt]
  · norm_num [round_eq]

/-- The tail of a list with one appended element has the original length. -/
theorem length_tail_append_single {α : Type} (l : List α) (a : α) :
    ((l ++ [a]).tail).length = l.length := by
  cases l <;> simp

/-- Appending then dropping the head commutes for nonempty lists. -/
theorem tail_append_single_of_ne_nil {α : Type} (l : List α) (a : α) (h : l ≠ []) :
    (l ++ [a]).tail = l.tail ++ [a] := by
  cases l with
  | nil => exact absurd rfl h
  | cons x xs => rfl

/-- C6 (amended): for dead_time > 0 and valve_interval > 0 the delay-buffer
capacity is `max 1 ⌊dead_time / valve_interval⌋` (truncation, not rounding);
the buffer starts empty, and every `_update_plant_model` call preserves the
capacity bound, keeps the capacity itself unchanged, and appends the new
command while evicting the oldest entry exactly when the buffer would
overflow. -/
theorem smith_delay_buffer_capacity
    (target_flow_rate scale_interval valve_interval target_weight vessel_weight
      kp ki kd dead_time plant_gain plant_time_constant q r
      output_min output_max integral_limit : ℚ)
    (s : SmithPredictorAdvancedBrewStrategy) (rexp : ℚ → ℚ) (cmd dt : ℚ)
    (hd : 0 < dead_time) (hv : 0 < valve_interval)
    (hds1 : 1 ≤ s.delay_samples)
    (hlen : (s.delay_buffer.length : ℤ) ≤ s.delay_samples) :
    (SmithPredictorAdvancedBrewStrategy.init target_flow_rate scale_interval
        valve_interval target_weight vessel_weight kp ki kd dead_time plant_gain
        plant_time_constant q r output_min output_max integral_limit).delay_samples
      = max 1 ⌊dead_time / valve_interval⌋
    ∧ (SmithPredictorAdvancedBrewStrategy.init target_flow_rate scale_interval
        valve_interval target_weight vessel_weight kp ki kd dead_time plant_gain
        plant_time_constant q r output_min output_max integral_limit).delay_buffer = []
    ∧ ((s.update_plant_model rexp cmd dt).delay_buffer.length : ℤ) ≤ s.delay_samples
    ∧ (s.update_plant_model rexp cmd dt).delay_samples = s.delay_samples
    ∧ (s.update_plant_model rexp cmd dt).delay_buffer
        = if (s.delay_buffer.length : ℤ) + 1 > s.delay_samples
          then s.delay_buffer.tail ++ [cmd]
          else s.delay_buffer ++ [cmd] := by
  have hq0 : (0 : ℚ) ≤ dead_time / valve_interval := le_of_lt (div_pos hd hv)
  have hlen1 : ((s.delay_buffer ++ [cmd]).length : ℤ) = (s.delay_buffer.length : ℤ) + 1 := by
    simp
  refine ⟨?_, rfl, ?_, rfl, ?_⟩
  · simp only [SmithPredictorAdvancedBrewStrategy.init, pyInt, if_pos hq0]
  · simp only [SmithPredictorAdvancedBrewStrategy.update_plant_model]
    split
    · rename_i hgt
      rw [length_tail_append_single]
      exact hlen
    · rename_i hle
      exact not_lt.mp hle
  · simp only [SmithPredictorAdvancedBrewStrategy.update_plant_model]
    by_cases hc : (s.delay_buffer.length : ℤ) + 1 > s.delay_samples
    · rw [if_pos (by rw [hlen1]; exact hc), if_pos hc]
      apply tail_append_single_of_ne_nil
      intro hnil
      rw [hnil] at hc
      simp only [List.length_nil, Nat.cast_zero, zero_add] at hc
      omega
    · rw [if_neg (by rw [hlen1]; exact hc), if_neg hc]

/-- Witness for the amended C6 at dead_time = 30, valve_interval = 4, applied to
the freshly constructed strategy (empty buffer, capacity 7) pushing command 3. -/
theorem smith_delay_buffer_capacity_witness :
    let s0 := SmithPredictorAdvancedBrewStrategy.init (1/20) (1/2) 4 1337 229
      1 (1/10) (1/20) 30 (1/100) 10 (1/1000) (1/10) (-10) 10 100
    let r0 : ℚ → ℚ := fun x => x
    s0.delay_samples = max 1 ⌊(30 : ℚ) / 4⌋
    ∧ s0.delay_buffer = []
    ∧ ((s0.update_plant_model r0 3 1).delay_buffer.length : ℤ) ≤ s0.delay_samples
    ∧ (s0.update_plant_model r0 3 1).delay_samples = s0.delay_samples
    ∧ (s0.update_plant_model r0 3 1).delay_buffer
        = if (s0.delay_buffer.length : ℤ) + 1 > s0.delay_samples
          then s0.delay_buffer.tail ++ [3] else s0.delay_buffer ++ [3] :=
  smith_delay_buffer_capacity (1/20) (1/2) 4 1337 229 1 (1/10) (1/20) 30 (1/100) 10
    (1/1000) (1/10) (-10) 10 100
    (SmithPredictorAdvancedBrewStrategy.init (1/20) (1/2) 4 1337 229
      1 (1/10) (1/20) 30 (1/100) 10 (1/1000) (1/10) (-10) 10 100)
    (fun x => x) 3 1 (by norm_num) (by norm_num)
    (by norm_num [SmithPredictorAdvancedBrewStrategy.init, pyInt])
    (by norm_num [SmithPredictorAdvancedBrewStrategy.init])

/-- The weight-check guard of every strategy holds exactly when the weight is
present and the coffee weight has reached the target. -/
theorem coffeeWeight_any_iff (vessel_weight coffee_target : ℚ) (w : Option ℚ) :
    (coffeeWeight vessel_weight w).any (fun cw => coffee_target ≤ cw) = true
      ↔ ∃ x, w = some x ∧ coffee_target ≤ x - vessel_weight := by
  cases w <;> simp [coffeeWeight]

/-- Default strategy: STOP exactly on reached weight target. -/
theorem default_step_stop_iff (s : DefaultBrewStrategy) (flow weight : Option ℚ) :
    ((s.step flow weight).1 = ValveCommand.STOP
      ↔ ∃ w, weight = some w ∧ s.coffee_target ≤ w - s.vessel_weight)
    ∧ (∀ w, weight = some w → s.coffee_target ≤ w - s.vessel_weight →
        s.step flow weight = (ValveCommand.STOP, 0)) := by
  have hiff := coffeeWeight_any_iff s.vessel_weight s.coffee_target weight
  by_cases hany : (coffeeWeight s.vessel_weight weight).any
      (fun cw => s.coffee_target ≤ cw) = true
  · refine ⟨?_, fun w hw hge => ?_⟩
    · simp only [DefaultBrewStrategy.step, hany, if_true]
      simpa using hiff.mp hany
    · simp only [DefaultBrewStrategy.step, hany, if_true]
  · refine ⟨?_, fun w hw hge => absurd (hiff.mpr ⟨w, hw, hge⟩) hany⟩
    constructor
    · intro hstop
      exfalso
      rcases flow with _ | fr
      · simp [DefaultBrewStrategy.step, hany] at hstop
      · simp only [DefaultBrewStrategy.step, hany, Bool.false_eq_true, if_false] at hstop
        split_ifs at hstop <;> simp_all
    · intro hex
      exact absurd (hiff.mpr hex) hany

/-- PID strategy: STOP exactly on reached weight target. -/
theorem pid_step_stop_iff (s : PIDBrewStrategy) (now : ℚ) (flow weight : Option ℚ) :
    ((s.step now flow weight).1 = ValveCommand.STOP
      ↔ ∃ w, weight = some w ∧ s.coffee_target ≤ w - s.vessel_weight)
    ∧ (∀ w, weight = some w → s.coffee_target ≤ w - s.vessel_weight →
        s.step now flow weight = (ValveCommand.STOP, 0, s)) := by
  have hiff := coffeeWeight_any_iff s.vessel_weight s.coffee_target weight
  by_cases hany : (coffeeWeight s.vessel_weight weight).any
      (fun cw => s.coffee_target ≤ cw) = true
  · refine ⟨?_, fun w hw hge => ?_⟩
    · simp only [PIDBrewStrategy.step, hany, if_true]
      simpa using hiff.mp hany
    · simp only [PIDBrewStrategy.step, hany, if_true]
  · refine ⟨?_, fun w hw hge => absurd (hiff.mpr ⟨w, hw, hge⟩) hany⟩
    constructor
    · intro hstop
      exfalso
      rcases flow with _ | fr
      · simp [PIDBrewStrategy.step, hany] at hstop
      · simp only [PIDBrewStrategy.step, hany, Bool.false_eq_true, if_false] at hstop
        split_ifs at hstop <;> simp_all
    · intro hex
      exact absurd (hiff.mpr hex) hany

/-- KalmanPID strategy: STOP exactly on reached weight target. -/
theorem kalman_pid_step_stop_iff (s : KalmanPIDBrewStrategy) (now : ℚ)
    (flow weight : Option ℚ) :
    ((s.step now flow weight).1 = ValveCommand.STOP
      ↔ ∃ w, weight = some w ∧ s.coffee_target ≤ w - s.vessel_weight)
    ∧ (∀ w, weight = some w → s.coffee_target ≤ w - s.vessel_weight →
        s.step now flow weight = (ValveCommand.STOP, 0, s)) := by
  have hiff := coffeeWeight_any_iff s.vessel_weight s.coffee_target weight
  by_cases hany : (coffeeWeight s.vessel_weight weight).any
      (fun cw => s.coffee_target ≤ cw) = true
  · refine ⟨?_, fun w hw hge => ?_⟩
    · simp only [KalmanPIDBrewStrategy.step, hany, if_true]
      simpa using hiff.mp hany
    · simp only [KalmanPIDBrewStrategy.step, hany, if_true]
  · refine ⟨?_, fun w hw hge => absurd (hiff.mpr ⟨w, hw, hge⟩) hany⟩
    constructor
    · intro hstop
      exfalso
      rcases flow with _ | fr
      · simp [KalmanPIDBrewStrategy.step, hany] at hstop
      · simp only [KalmanPIDBrewStrategy.step, hany, Bool.false_eq_true, if_false] at hstop
        split_ifs at hstop <;> simp_all
    · intro hex
      exact absurd (hiff.mpr hex) hany

/-- AdaptiveGainScheduling strategy: STOP exactly on reached weight target. -/
theorem adaptive_step_stop_iff (s : AdaptiveGainSchedulingBrewStrategy) (now : ℚ)
    (flow weight : Option ℚ) :
    ((s.step now flow weight).1 = ValveCommand.STOP
      ↔ ∃ w, weight = some w ∧ s.coffee_target ≤ w - s.vessel_weight)
    ∧ (∀ w, weight = some w → s.coffee_target ≤ w - s.vessel_weight →
        s.step now flow weight = (ValveCommand.STOP, 0, s)) := by
  have hiff := coffeeWeight_any_iff s.vessel_weight s.coffee_target weight
  by_cases hany : (coffeeWeight s.vessel_weight weight).any
      (fun cw => s.coffee_target ≤ cw) = true
  · refine ⟨?_, fun w hw hge => ?_⟩
    · simp only [AdaptiveGainSchedulingBrewStrategy.step, hany, if_true]
      simpa using hiff.mp hany
    · simp only [AdaptiveGainSchedulingBrewStrategy.step, hany, if_true]
  · refine ⟨?_, fun w hw hge => absurd (hiff.mpr ⟨w, hw, hge⟩) hany⟩
    constructor
    · intro hstop
      exfalso
      rcases flow with _ | fr
      · simp [AdaptiveGainSchedulingBrewStrategy.step, hany] at hstop
      · simp only [AdaptiveGainSchedulingBrewStrategy.step, hany, Bool.false_eq_true,
          if_false] at hstop
        split_ifs at hstop <;> simp_all
    · intro hex
      exact absurd (hiff.mpr hex) hany

/-- MPC strategy: STOP exactly on reached weight target. -/
theorem mpc_step_stop_iff (s : MPCBrewStrategy) (rexp : ℚ → ℚ) (now : ℚ)
    (flow weight : Option ℚ) :
    ((s.step rexp now flow weight).1 = ValveCommand.STOP
      ↔ ∃ w, weight = some w ∧ s.coffee_target ≤ w - s.vessel_weight)
    ∧ (∀ w, weight = some w → s.coffee_target ≤ w - s.vessel_weight →
        s.step rexp now flow weight = (ValveCommand.STOP, 0, s)) := by
  have hiff := coffeeWeight_any_iff s.vessel_weight s.coffee_target weight
  by_cases hany : (coffeeWeight s.vessel_weight weight).any
      (fun cw => s.coffee_target ≤ cw) = true
  · refine ⟨?_, fun w hw hge => ?_⟩
    · simp only [MPCBrewStrategy.step, hany, if_true]
      simpa using hiff.mp hany
    · simp only [MPCBrewStrategy.step, hany, if_true]
  · refine ⟨?_, fun w hw hge => absurd (hiff.mpr ⟨w, hw, hge⟩) hany⟩
    constructor
    · intro hstop
      exfalso
      rcases flow with _ | fr
      · simp [MPCBrewStrategy.step, hany] at hstop
      · simp only [MPCBrewStrategy.step, hany, Bool.false_eq_true, if_false] at hstop
        split_ifs at hstop <;> simp_all
    · intro hex
      exact absurd (hiff.mpr hex) hany

/-- SmithPredictor strategy: STOP exactly on reached weight target. -/
theorem smith_step_stop_iff (s : SmithPredictorAdvancedBrewStrategy) (rexp : ℚ → ℚ)
    (now : ℚ) (flow weight : Option ℚ) :
    ((s.step rexp now flow weight).1 = ValveCommand.STOP
      ↔ ∃ w, weight = some w ∧ s.coffee_target ≤ w - s.vessel_weight)
    ∧ (∀ w, weight = some w → s.coffee_target ≤ w - s.vessel_weight →
        s.step rexp now flow weight = (ValveCommand.STOP, 0, s)) := by
  have hiff := coffeeWeight_any_iff s.vessel_weight s.coffee_target weight
  by_cases hany : (coffeeWeight s.vessel_weight weight).any
      (fun cw => s.coffee_target ≤ cw) = true
  · refine ⟨?_, fun w hw hge => ?_⟩
    · simp only [SmithPredictorAdvancedBrewStrategy.step, hany, if_true]
      simpa using hiff.mp hany
    · simp only [SmithPredictorAdvancedBrewStrategy.step, hany, if_true]
  · refine ⟨?_, fun w hw hge => absurd (hiff.mpr ⟨w, hw, hge⟩) hany⟩
    constructor
    · intro hstop
      exfalso
      rcases flow with _ | fr
      · simp [SmithPredictorAdvancedBrewStrategy.step, hany] at hstop
      · simp only [SmithPredictorAdvancedBrewStrategy.step, hany, Bool.false_eq_true,
          if_false] at hstop
        split_ifs at hstop <;> simp_all
    · intro hex
      exact absurd (hiff.mpr hex) hany

/-- C1: in every strategy variant, `step(flow_rate, weight)` returns STOP if
and only if the weight is present and (weight − vessel_weight) has reached
coffee_target, in which case the result is exactly (STOP, 0) with the strategy
state untouched; the weight check precedes all flow-rate logic, and STOP is
never produced while the coffee weight is below target. -/
theorem step_stop_iff_weight_target :
    (∀ (s : DefaultBrewStrategy) (flow weight : Option ℚ),
      ((s.step flow weight).1 = ValveCommand.STOP
        ↔ ∃ w, weight = some w ∧ s.coffee_target ≤ w - s.vessel_weight)
      ∧ (∀ w, weight = some w → s.coffee_target ≤ w - s.vessel_weight →
          s.step flow weight = (ValveCommand.STOP, 0)))
    ∧ (∀ (s : PIDBrewStrategy) (now : ℚ) (flow weight : Option ℚ),
      ((s.step now flow weight).1 = ValveCommand.STOP
        ↔ ∃ w, weight = some w ∧ s.coffee_target ≤ w - s.vessel_weight)
      ∧ (∀ w, weight = some w → s.coffee_target ≤ w - s.vessel_weight →
          s.step now flow weight = (ValveCommand.STOP, 0, s)))
    ∧ (∀ (s : KalmanPIDBrewStrategy) (now : ℚ) (flow weight : Option ℚ),
      ((s.step now flow weight).1 = ValveCommand.STOP
        ↔ ∃ w, weight = some w ∧ s.coffee_target ≤ w - s.vessel_weight)
      ∧ (∀ w, weight = some w → s.coffee_target ≤ w - s.vessel_weight →
          s.step now flow weight = (ValveCommand.STOP, 0, s)))
    ∧ (∀ (s : AdaptiveGainSchedulingBrewStrategy) (now : ℚ) (flow weight : Option ℚ),
      ((s.step now flow weight).1 = ValveCommand.STOP
        ↔ ∃ w, weight = some w ∧ s.coffee_target ≤ w - s.vessel_weight)
      ∧ (∀ w, weight = some w → s.coffee_target ≤ w - s.vessel_weight →
          s.step now flow weight = (ValveCommand.STOP, 0, s)))
    ∧ (∀ (s : MPCBrewStrategy) (rexp : ℚ → ℚ) (now : ℚ) (flow weight : Option ℚ),
      ((s.step rexp now flow weight).1 = ValveCommand.STOP
        ↔ ∃ w, weight = some w ∧ s.coffee_target ≤ w - s.vessel_weight)
      ∧ (∀ w, weight = some w → s.coffee_target ≤ w - s.vessel_weight →
          s.step rexp now flow weight = (ValveCommand.STOP, 0, s)))
    ∧ (∀ (s : SmithPredictorAdvancedBrewStrategy) (rexp : ℚ → ℚ) (now : ℚ)
        (flow weight : Option ℚ),
      ((s.step rexp now flow weight).1 = ValveCommand.STOP
        ↔ ∃ w, weight = some w ∧ s.coffee_target ≤ w - s.vessel_weight)
      ∧ (∀ w, weight = some w → s.coffee_target ≤ w - s.vessel_weight →
          s.step rexp now flow weight = (ValveCommand.STOP, 0, s))) :=
  ⟨default_step_stop_iff, pid_step_stop_iff, kalman_pid_step_stop_iff,
    adaptive_step_stop_iff, mpc_step_stop_iff, smith_step_stop_iff⟩

/-- A `DefaultBrewStrategy` with the config defaults. -/
def defaultExample : DefaultBrewStrategy :=
  { target_flow_rate := 1/20, scale_interval := 1/2, valve_interval := 60,
    epsilon := 1/125, target_weight := 1337, vessel_weight := 229,
    coffee_target := 1337 - 229 }

/-- A `KalmanPIDBrewStrategy` with the documented defaults. -/
def kalmanPidExample : KalmanPIDBrewStrategy :=
  { target_flow_rate := 1/20, scale_interval := 1/2, valve_interval := 60,
    target_weight := 1337, vessel_weight := 229, coffee_target := 1337 - 229,
    kp := 1, ki := 1/10, kd := 1/20, integral := 0, prev_error := 0,
    prev_timestamp := none, output_min := -10, output_max := 10,
    integral_limit := 100,
    kalman := KalmanFilter.init (1/1000) (1/10) (1/20) 1 }

/-- An `AdaptiveGainSchedulingBrewStrategy` with the documented defaults. -/
def adaptiveExample : AdaptiveGainSchedulingBrewStrategy :=
  { target_flow_rate := 1/20, scale_interval := 1/2, valve_interval := 60,
    target_weight := 1337, vessel_weight := 229, coffee_target := 1337 - 229,
    kp_low := 1/2, ki_low := 1/20, kd_low := 1/50,
    kp_med := 3/2, ki_med := 3/20, kd_med := 2/25,
    kp_high := 5/2, ki_high := 1/4, kd_high := 1/10,
    kp := 1/2, ki := 1/20, kd := 1/50,
    flow_rate_low_threshold := 3/100, flow_rate_high_threshold := 7/100,
    current_region := GainRegion.low, adaptation_enabled := true,
    adaptation_rate := 1/100, sustained_error_count := 0, adaptation_factor := 1,
    integral := 0, prev_error := 0, prev_timestamp := none,
    output_min := -10, output_max := 10, integral_limit := 100 }

/-- An `MPCBrewStrategy` with the documented defaults. -/
def mpcExample : MPCBrewStrategy :=
  { target_flow_rate := 1/20, scale_interval := 1/2, valve_interval := 60,
    target_weight := 1337, vessel_weight := 229, coffee_target := 1337 - 229,
    horizon := 15, plant_gain := 1/100, plant_time_constant := 10,
    q_error := 1, q_control := 1/10, q_delta := 1/2,
    output_min := -10, output_max := 10,
    model_state := 0, prev_control := 0, prev_timestamp := none, is_init := false }

/-- A freshly constructed `SmithPredictorAdvancedBrewStrategy` with config and
schema defaults. -/
def smithExample : SmithPredictorAdvancedBrewStrategy :=
  SmithPredictorAdvancedBrewStrategy.init (1/20) (1/2) 60 1337 229
    1 (1/10) (1/20) 30 (1/100) 10 (1/1000) (1/10) (-10) 10 100

/-- Witness for C1: all six strategies STOP at weight 1400g (coffee weight
1171g ≥ 1108g target, spec §8 end-to-end example). -/
theorem step_stop_iff_weight_target_witness :
    defaultExample.step (some (1/20)) (some 1400) = (ValveCommand.STOP, 0)
    ∧ pidDefault.step 0 (some (1/20)) (some 1400) = (ValveCommand.STOP, 0, pidDefault)
    ∧ kalmanPidExample.step 0 (some (1/20)) (some 1400)
        = (ValveCommand.STOP, 0, kalmanPidExample)
    ∧ adaptiveExample.step 0 (some (1/20)) (some 1400)
        = (ValveCommand.STOP, 0, adaptiveExample)
    ∧ mpcExample.step (fun x => x) 0 (some (1/20)) (some 1400)
        = (ValveCommand.STOP, 0, mpcExample)
    ∧ smithExample.step (fun x => x) 0 (some (1/20)) (some 1400)
        = (ValveCommand.STOP, 0, smithExample) :=
  ⟨(step_stop_iff_weight_target.1 defaultExample (some (1/20)) (some 1400)).2
      1400 rfl (by norm_num [defaultExample]),
   (step_stop_iff_weight_target.2.1 pidDefault 0 (some (1/20)) (some 1400)).2
      1400 rfl (by norm_num [pidDefault]),
   (step_stop_iff_weight_target.2.2.1 kalmanPidExample 0 (some (1/20)) (some 1400)).2
      1400 rfl (by norm_num [kalmanPidExample]),
   (step_stop_iff_weight_target.2.2.2.1 adaptiveExample 0 (some (1/20)) (some 1400)).2
      1400 rfl (by norm_num [adaptiveExample]),
   (step_stop_iff_weight_target.2.2.2.2.1 mpcExample (fun x => x) 0 (some (1/20))
      (some 1400)).2 1400 rfl (by norm_num [mpcExample]),
   (step_stop_iff_weight_target.2.2.2.2.2 smithExample (fun x => x) 0 (some (1/20))
      (some 1400)).2 1400 rfl
      (by norm_num [smithExample, SmithPredictorAdvancedBrewStrategy.init])⟩

/-- Modelled from the spec's words for the MPC selection rule: the minimizer of
`f` over a list, ties resolved to the earliest element. -/
def firstArgmin (f : ℚ → ℚ) : List ℚ → Option ℚ
  | [] => none
  | x :: xs =>
    match firstArgmin f xs with
    | none => some x
    | some y => if f x ≤ f y then some x else some y

/-- `firstArgmin` is some on nonempty lists. -/
theorem firstArgmin_cons_ne_none (f : ℚ → ℚ) (x : ℚ) (xs : List ℚ) :
    firstArgmin f (x :: xs) ≠ none := by
  simp only [firstArgmin]
  rcases firstArgmin f xs with _ | y
  · simp
  · show (if f x ≤ f y then some x else some y) ≠ none
    split_ifs <;> simp

/-- `firstArgmin` returns the earliest minimizer: everything before it costs
strictly more, everything after costs at least as much. -/
theorem firstArgmin_earliest_min (f : ℚ → ℚ) (l : List ℚ) (y : ℚ)
    (h : firstArgmin f l = some y) :
    ∃ l1 l2, l = l1 ++ y :: l2 ∧ (∀ z ∈ l1, f y < f z) ∧ (∀ z ∈ l2, f y ≤ f z) := by
  induction l generalizing y with
  | nil => simp [firstArgmin] at h
  | cons x xs ih =>
    simp only [firstArgmin] at h
    cases hF : firstArgmin f xs with
    | none =>
      rw [hF] at h
      have h' : some x = some y := h
      cases h'
      have hxs : xs = [] := by
        cases xs with
        | nil => rfl
        | cons a l => exact absurd hF (firstArgmin_cons_ne_none f a l)
      subst hxs
      exact ⟨[], [], rfl, by simp, by simp⟩
    | some w =>
      rw [hF] at h
      have h' : (if f x ≤ f w then some x else some w) = some y := h
      obtain ⟨l1, l2, hdecomp, hpre, hpost⟩ := ih w hF
      split_ifs at h' with hxw
      · cases h'
        refine ⟨[], xs, rfl, by simp, ?_⟩
        intro z hz
        rw [hdecomp] at hz
        rcases List.mem_append.mp hz with hz1 | hz2
        · exact le_trans hxw (le_of_lt (hpre z hz1))
        · rcases List.mem_cons.mp hz2 with rfl | hz3
          · exact hxw
          · exact le_trans hxw (hpost z hz3)
      · cases h'
        refine ⟨x :: l1, l2, by rw [hdecomp]; rfl, ?_, hpost⟩
        intro z hz
        rcases List.mem_cons.mp hz with rfl | hz1
        · exact lt_of_not_le hxw
        · exact hpre z hz1

/-- `firstArgmin` yields none only on the empty list. -/
theorem firstArgmin_eq_none_iff (f : ℚ → ℚ) (l : List ℚ) :
    firstArgmin f l = none ↔ l = [] := by
  cases l with
  | nil => simp [firstArgmin]
  | cons x xs =>
    constructor
    · intro h
      exact absurd h (firstArgmin_cons_ne_none f x xs)
    · intro h
      exact absurd h (List.cons_ne_nil x xs)

/-- The candidate loop of `_solve_mpc`, once an incumbent cost `bc` is live,
returns the `firstArgmin` of the remaining clamped candidates when that beats
`bc` strictly, and the incumbent `b` otherwise. -/
theorem solve_mpc_loop_some_spec (s : MPCBrewStrategy) (rexp : ℚ → ℚ) (flow dt : ℚ)
    (l : List ℚ) (y : ℚ)
    (hF : firstArgmin (fun u => s.candidate_cost rexp flow dt u)
        (l.map (fun c => max s.output_min (min s.output_max c))) = some y) :
    ∀ b bc : ℚ, s.solve_mpc_loop rexp flow dt l b (some bc)
      = if s.candidate_cost rexp flow dt y < bc then y else b := by
  induction l generalizing y with
  | nil => simp [firstArgmin] at hF
  | cons c rest ih =>
    intro b bc
    simp only [List.map_cons, firstArgmin] at hF
    show (if s.candidate_cost rexp flow dt (max s.output_min (min s.output_max c)) < bc
          then s.solve_mpc_loop rexp flow dt rest (max s.output_min (min s.output_max c))
            (some (s.candidate_cost rexp flow dt (max s.output_min (min s.output_max c))))
          else s.solve_mpc_loop rexp flow dt rest b (some bc))
        = if s.candidate_cost rexp flow dt y < bc then y else b
    cases hR : firstArgmin (fun u => s.candidate_cost rexp flow dt u)
        (rest.map (fun c => max s.output_min (min s.output_max c))) with
    | none =>
      rw [hR] at hF
      have hy : some (max s.output_min (min s.output_max c)) = some y := hF
      cases hy
      have hrest : rest = [] := by
        have := (firstArgmin_eq_none_iff (fun u => s.candidate_cost rexp flow dt u)
          (rest.map (fun c => max s.output_min (min s.output_max c)))).mp hR
        cases rest with
        | nil => rfl
        | cons a t => simp at this
      subst hrest
      simp only [MPCBrewStrategy.solve_mpc_loop]
    | some w =>
      rw [hR] at hF
      have hy : (if s.candidate_cost rexp flow dt (max s.output_min (min s.output_max c))
            ≤ s.candidate_cost rexp flow dt w then some (max s.output_min (min s.output_max c))
          else some w) = some y := hF
      rw [ih w hR, ih w hR]
      split_ifs at hy with hcw
      · cases hy
        split_ifs <;> first | rfl | linarith
      · cases hy
        split_ifs <;> first | rfl | linarith

/-- Starting from the infinite incumbent (`best_cost = inf`), the loop returns
exactly the first cost minimizer of the clamped candidates. -/
theorem solve_mpc_loop_none_spec (s : MPCBrewStrategy) (rexp : ℚ → ℚ) (flow dt : ℚ)
    (c : ℚ) (rest : List ℚ) (b : ℚ) :
    some (s.solve_mpc_loop rexp flow dt (c :: rest) b none)
      = firstArgmin (fun u => s.candidate_cost rexp flow dt u)
          ((c :: rest).map (fun x => max s.output_min (min s.output_max x))) := by
  simp only [List.map_cons, firstArgmin]
  cases hR : firstArgmin (fun u => s.candidate_cost rexp flow dt u)
      (rest.map (fun x => max s.output_min (min s.output_max x))) with
  | none =>
    have hrest : rest = [] := by
      have hm := (firstArgmin_eq_none_iff (fun u => s.candidate_cost rexp flow dt u)
        (rest.map (fun x => max s.output_min (min s.output_max x)))).mp hR
      cases rest with
      | nil => rfl
      | cons a t => simp at hm
    subst hrest
    rfl
  | some w =>
    have hloop : s.solve_mpc_loop rexp flow dt (c :: rest) b none
        = s.solve_mpc_loop rexp flow dt rest (max s.output_min (min s.output_max c))
            (some (s.candidate_cost rexp flow dt (max s.output_min (min s.output_max c)))) :=
      rfl
    rw [hloop, solve_mpc_loop_some_spec s rexp flow dt rest w hR]
    show some (if s.candidate_cost rexp flow dt w
          < s.candidate_cost rexp flow dt (max s.output_min (min s.output_max c))
        then w else max s.output_min (min s.output_max c))
      = if s.candidate_cost rexp flow dt (max s.output_min (min s.output_max c))
          ≤ s.candidate_cost rexp flow dt w
        then some (max s.output_min (min s.output_max c)) else some w
    split_ifs <;> first | rfl | (exfalso; linarith)

/-- The tail of the cost loop (enumeration index ≥ 1) charges no Δu term:
it sums q_control·u² per step plus q_error times the squared errors. -/
theorem mpcCostFrom_succ (tgt qe qc qd up u : ℚ) (k : ℕ) (preds : List ℚ) :
    mpcCostFrom tgt qe qc qd up u (k + 1) preds
      = (preds.length : ℚ) * (qc * u * u)
        + qe * (preds.map (fun p => (tgt - p) ^ 2)).sum := by
  induction preds generalizing k with
  | nil => simp [mpcCostFrom]
  | cons p rest ih =>
    simp only [mpcCostFrom, List.map_cons, List.sum_cons, List.length_cons,
      if_neg (Nat.succ_ne_zero k)]
    rw [ih]
    push_cast
    ring

/-- Full cost of one candidate: Δu² is charged exactly once (at step 0, when the
horizon is nonempty), q_control·u² once per predicted step, and q_error times
each squared tracking error. -/
theorem mpcCostFrom_zero (tgt qe qc qd up u : ℚ) (preds : List ℚ) :
    mpcCostFrom tgt qe qc qd up u 0 preds
      = (if preds.isEmpty then 0 else qd * (u - up) ^ 2)
        + (preds.length : ℚ) * (qc * u * u)
        + qe * (preds.map (fun p => (tgt - p) ^ 2)).sum := by
  cases preds with
  | nil => simp [mpcCostFrom]
  | cons p rest =>
    simp only [mpcCostFrom, List.map_cons, List.sum_cons, List.length_cons,
      List.isEmpty_cons, if_pos rfl, Bool.false_eq_true, if_false]
    rw [mpcCostFrom_succ]
    push_cast
    ring

/-- C7: the MPC control action is the cost-minimizing candidate over the nine
deltas applied to prev_control, each clamped to [out_min, out_max], with exact
ties resolved to the earliest candidate in ascending-delta order; the cost of a
candidate charges q_error·error² per simulated step, q_control·u² per simulated
step, and q_delta·Δu² once (at the first step only).  The trailing conjunct
pins down `firstArgmin` as the earliest-minimum selector. -/
theorem mpc_selects_first_cost_minimizer (s : MPCBrewStrategy) (rexp : ℚ → ℚ)
    (flow dt : ℚ) (g : ℚ → ℚ) (l : List ℚ) (y : ℚ) (hF : firstArgmin g l = some y) :
    some (s.solve_mpc rexp flow dt)
      = firstArgmin (fun u => s.candidate_cost rexp flow dt u)
          (mpcDeltas.map (fun d => max s.output_min (min s.output_max (s.prev_control + d))))
    ∧ (∀ u : ℚ,
        s.candidate_cost rexp flow dt u
          = (if (s.predict_plant_response rexp flow
                (u :: List.replicate (s.horizon - 1) u) dt).isEmpty
             then 0 else s.q_delta * (u - s.prev_control) ^ 2)
            + ((s.predict_plant_response rexp flow
                (u :: List.replicate (s.horizon - 1) u) dt).length : ℚ)
              * (s.q_control * u * u)
            + s.q_error * ((s.predict_plant_response rexp flow
                (u :: List.replicate (s.horizon - 1) u) dt).map
                  (fun p => (s.target_flow_rate - p) ^ 2)).sum)
    ∧ (∃ l1 l2, l = l1 ++ y :: l2 ∧ (∀ z ∈ l1, g y < g z) ∧ (∀ z ∈ l2, g y ≤ g z)) := by
  refine ⟨?_, ?_, firstArgmin_earliest_min g l y hF⟩
  · have h1 : some (s.solve_mpc rexp flow dt)
        = firstArgmin (fun u => s.candidate_cost rexp flow dt u)
            ((mpcDeltas.map (fun d => s.prev_control + d)).map
              (fun x => max s.output_min (min s.output_max x))) := by
      exact solve_mpc_loop_none_spec s rexp flow dt (s.prev_control + (-2))
        ([(-1 : ℚ), -1/2, -1/4, 0, 1/4, 1/2, 1, 2].map (fun d => s.prev_control + d))
        s.prev_control
    rw [List.map_map] at h1
    simpa [Function.comp] using h1
  · intro u
    show mpcCostFrom s.target_flow_rate s.q_error s.q_control s.q_delta s.prev_control u 0
        (s.predict_plant_response rexp flow (u :: List.replicate (s.horizon - 1) u) dt) = _
    exact mpcCostFrom_zero s.target_flow_rate s.q_error s.q_control s.q_delta
      s.prev_control u _

/-- Witness for C7 at the default-parameter MPC strategy, with the earliest-tie
selector exercised on [2, -1, 1] under the squaring cost (both -1 and 1 cost 1;
the earlier -1 wins). -/
theorem mpc_selects_first_cost_minimizer_witness :
    some (mpcExample.solve_mpc (fun x => x) (1/10) 60)
      = firstArgmin (fun u => mpcExample.candidate_cost (fun x => x) (1/10) 60 u)
          (mpcDeltas.map (fun d =>
            max mpcExample.output_min (min mpcExample.output_max (mpcExample.prev_control + d))))
    ∧ mpcExample.candidate_cost (fun x => x) (1/10) 60 3
        = (if (mpcExample.predict_plant_response (fun x => x) (1/10)
              (3 :: List.replicate (mpcExample.horizon - 1) 3) 60).isEmpty
           then 0 else mpcExample.q_delta * (3 - mpcExample.prev_control) ^ 2)
          + ((mpcExample.predict_plant_response (fun x => x) (1/10)
              (3 :: List.replicate (mpcExample.horizon - 1) 3) 60).length : ℚ)
            * (mpcExample.q_control * 3 * 3)
          + mpcExample.q_error * ((mpcExample.predict_plant_response (fun x => x) (1/10)
              (3 :: List.replicate (mpcExample.horizon - 1) 3) 60).map
                (fun p => (mpcExample.target_flow_rate - p) ^ 2)).sum
    ∧ (∃ l1 l2, ([2, -1, 1] : List ℚ) = l1 ++ (-1 : ℚ) :: l2
        ∧ (∀ z ∈ l1, (-1 : ℚ) * -1 < z * z) ∧ (∀ z ∈ l2, (-1 : ℚ) * -1 ≤ z * z)) :=
  by
  have hF : firstArgmin (fun u : ℚ => u * u) [2, -1, 1] = some (-1) := by
    norm_num [firstArgmin]
  exact ⟨(mpc_selects_first_cost_minimizer mpcExample (fun x => x) (1/10) 60
      (fun u => u * u) [2, -1, 1] (-1) hF).1,
    (mpc_selects_first_cost_minimizer mpcExample (fun x => x) (1/10) 60
      (fun u => u * u) [2, -1, 1] (-1) hF).2.1 3,
    (mpc_selects_first_cost_minimizer mpcExample (fun x => x) (1/10) 60
      (fun u => u * u) [2, -1, 1] (-1) hF).2.2⟩
